import Mathlib

/-!
Shallow embedding of the `deb_info` repository (apt/dpkg Xapian index
inspection tools) and proofs about its documented behaviour.

Python strings are modelled as `List Char`; byte strings (`bytes`) as
`List Nat` with entries below 256; a Xapian document is its ordered term
list plus its value slots; database access is a partial function from
document ids (a `none` result models the `xapian` exception raised for an
invalid id).  All messages printed by the tools are modelled as the list
of printed lines.
-/

namespace DebInfo

/-- Byte strings (`bytes` in the Python source): lists of byte values. -/
abbrev Bytes := List Nat

/-- `int.from_bytes(raw, byteorder="big")`: big-endian interpretation of a
byte string as an unsigned integer (`0` for the empty string). -/
def int_from_bytes_be (raw : Bytes) : Nat :=
  raw.foldl (fun acc b => acc * 256 + b) 0

/-- Result of `decode_time` in `dump_terms.py`.  The source renders the
number to a string, attaching a UTC date rendering exactly when the input
had length four; the constructor records which interpretation was taken. -/
inductive TimeDecoded where
  | timestamp (secs : Nat)
  | plain (n : Nat)
deriving DecidableEq, Repr

/-- `decode_time` from `dump_terms.py`: a 4-byte value is unpacked with
`struct.unpack(">I", raw)` (big-endian unsigned 32-bit) and rendered as a
Unix timestamp; any other length goes through
`int.from_bytes(raw, byteorder="big")` with no timestamp rendering. -/
def decode_time (raw : Bytes) : TimeDecoded :=
  if raw.length = 4 then
    TimeDecoded.timestamp (int_from_bytes_be raw)
  else
    TimeDecoded.plain (int_from_bytes_be raw)

theorem int_from_bytes_be_four (b0 b1 b2 b3 : Nat) :
    int_from_bytes_be [b0, b1, b2, b3] =
      b0 * 2 ^ 24 + b1 * 2 ^ 16 + b2 * 2 ^ 8 + b3 := by
  simp [int_from_bytes_be, List.foldl]
  ring

/-- C8: `decode_time` decodes every 4-byte string as an unsigned 32-bit
big-endian integer interpreted as a Unix timestamp (so `0x00000000`
decodes to epoch 0), and a byte string of any other length as a plain
big-endian unsigned integer with no timestamp interpretation. -/
theorem decode_time_c8 :
    (∀ b0 b1 b2 b3 : Nat,
        decode_time [b0, b1, b2, b3] =
          TimeDecoded.timestamp (b0 * 2 ^ 24 + b1 * 2 ^ 16 + b2 * 2 ^ 8 + b3)) ∧
    decode_time [0, 0, 0, 0] = TimeDecoded.timestamp 0 ∧
    (∀ raw : Bytes, raw.length ≠ 4 →
        decode_time raw = TimeDecoded.plain (int_from_bytes_be raw)) := by
  refine ⟨?_, by decide, ?_⟩
  · intro b0 b1 b2 b3
    rw [decode_time, if_pos (by simp), int_from_bytes_be_four]
  · intro raw h
    rw [decode_time, if_neg h]

/-- Witness for C8: a two-byte input decodes as the plain big-endian
integer `1 * 256 + 2 = 258`, not as a timestamp. -/
theorem decode_time_c8_witness :
    decode_time [1, 2] = TimeDecoded.plain 258 := by
  have h := decode_time_c8.2.2 [1, 2] (by decide)
  simpa [int_from_bytes_be] using h

/-! ## UTF-8 and version-string decoding -/

/-- Strict UTF-8 decoding of a byte string into code points, as performed by
Python's `bytes.decode("utf-8")` with the default strict error handler:
continuation bytes must lie in `0x80..0xBF`, overlong encodings, surrogate
code points and values above `0x10FFFF` are rejected. -/
def utf8Decode : Bytes → Option (List Nat)
  | [] => some []
  | b :: rest =>
    if b < 0x80 then
      (utf8Decode rest).map (fun cps => b :: cps)
    else if 0xC2 ≤ b ∧ b ≤ 0xDF then
      match rest with
      | c1 :: rest1 =>
        if 0x80 ≤ c1 ∧ c1 ≤ 0xBF then
          (utf8Decode rest1).map (fun cps => ((b - 0xC0) * 64 + (c1 - 0x80)) :: cps)
        else none
      | [] => none
    else if 0xE0 ≤ b ∧ b ≤ 0xEF then
      match rest with
      | c1 :: c2 :: rest2 =>
        let cp := (b - 0xE0) * 4096 + (c1 - 0x80) * 64 + (c2 - 0x80)
        if 0x80 ≤ c1 ∧ c1 ≤ 0xBF ∧ 0x80 ≤ c2 ∧ c2 ≤ 0xBF ∧
            0x800 ≤ cp ∧ ¬(0xD800 ≤ cp ∧ cp ≤ 0xDFFF) then
          (utf8Decode rest2).map (fun cps => cp :: cps)
        else none
      | _ => none
    else if 0xF0 ≤ b ∧ b ≤ 0xF4 then
      match rest with
      | c1 :: c2 :: c3 :: rest3 =>
        let cp := (b - 0xF0) * 262144 + (c1 - 0x80) * 4096 + (c2 - 0x80) * 64 + (c3 - 0x80)
        if 0x80 ≤ c1 ∧ c1 ≤ 0xBF ∧ 0x80 ≤ c2 ∧ c2 ≤ 0xBF ∧ 0x80 ≤ c3 ∧ c3 ≤ 0xBF ∧
            0x10000 ≤ cp ∧ cp ≤ 0x10FFFF then
          (utf8Decode rest3).map (fun cps => cp :: cps)
        else none
      | _ => none
    else none

/-- One lowercase hexadecimal digit. -/
def hexDigit (n : Nat) : Char :=
  if n < 10 then Char.ofNat (48 + n) else Char.ofNat (87 + n)

/-- `bytes.hex()`: two lowercase hexadecimal digits per byte. -/
def bytesHex (raw : Bytes) : String :=
  String.mk (raw.foldr (fun b acc => hexDigit (b / 16) :: hexDigit (b % 16) :: acc) [])

/-- Render a list of code points as a string (used only on code points that
passed the printable-ASCII check, which are valid scalar values). -/
def codepointsToString (cps : List Nat) : String :=
  String.mk (cps.map Char.ofNat)

/-- `decode_version` from `dump_terms.py`: UTF-8 decode the raw bytes; if
decoding succeeds and every code point is printable ASCII (`0x20..0x7E`)
return the decoded text, otherwise return the lowercase hex dump of the
raw bytes. -/
def decode_version (raw : Bytes) : String :=
  match utf8Decode raw with
  | some cps =>
    if cps.all (fun c => 32 ≤ c ∧ c ≤ 126) then codepointsToString cps
    else bytesHex raw
  | none => bytesHex raw

/-! ## The document and database model -/

/-- A term of a Xapian document, after the `term.term.decode()` performed by
every scanning loop in the source: an ordered list of characters. -/
abbrev Term := List Char

/-- A Xapian document as seen through the engine boundary used by the
source: the ordered term list and the value slots.  `get_value` on a slot
that was never set returns the empty byte string, so value slots are a
total function into `Bytes` with `[]` for an absent slot. -/
structure Doc where
  terms : List Term
  values : Nat → Bytes

/-- A Xapian database handle: the reported document count and the
`get_document` operation; `none` models the `xapian.InvalidArgumentError`
(or `DocNotFoundError`) raised for an invalid or nonexistent id. -/
structure Db where
  doccount : Nat
  get : Nat → Option Doc

/-- `term_str.startswith("XP")` on a decoded term. -/
def hasXP : Term → Bool
  | 'X' :: 'P' :: _ => true
  | _ => false

/-- `term_str.startswith("XV")` on a decoded term. -/
def hasXV : Term → Bool
  | 'X' :: 'V' :: _ => true
  | _ => false

/-- `term_str.startswith("XS")` on a decoded term. -/
def hasXS : Term → Bool
  | 'X' :: 'S' :: _ => true
  | _ => false

/-- `get_pkg_name` / `get_pkg_name_from_doc` (defined identically in
`dump_terms.py` and `list_packages.py`): return the payload of the first
term starting with `"XP"`, or `None` when there is none. -/
def get_pkg_name : List Term → Option (List Char)
  | [] => none
  | t :: rest => if hasXP t then some (t.drop 2) else get_pkg_name rest

/-- The inner loop of `list_groups` in `dump_terms.py`: the first term
starting with `"XS"` yields the section (`break` after the first hit). -/
def sectionScan : List Term → Option (List Char)
  | [] => none
  | t :: rest => if hasXS t then some (t.drop 2) else sectionScan rest

/-- The term-scanning loop at the top of `dump_doc_info`: every `"XP"` term
overwrites `pkg_name`, every `"XV"` term overwrites `repo_version` (an
unconditional assignment inside `for term in doc.termlist()`). -/
def dumpScan (acc : Option (List Char) × Option (List Char)) :
    List Term → Option (List Char) × Option (List Char)
  | [] => acc
  | t :: rest =>
    if hasXP t then dumpScan (some (t.drop 2), acc.2) rest
    else if hasXV t then dumpScan (acc.1, some (t.drop 2)) rest
    else dumpScan acc rest

/-- The fields of `dump_doc_info` that are computed from the document
itself (terms and value slots); the remaining printed fields come from
external `dpkg`/`apt-cache` subprocess calls. -/
structure DumpInfo where
  pkg_name : Option (List Char)
  repo_version : Option (List Char)
  installed_version : Option String
  installed_flag : Bool
  installed_version_real : Option String
deriving DecidableEq, Repr

/-- The document-decoding core of `dump_doc_info` in `dump_terms.py`:
terms are scanned with `dumpScan`; slot 0 is decoded with `decode_version`
when non-empty; when slot 1 is non-empty and bit `0x80` of its first byte
is set, the installed flag is raised and slot 3 (when non-empty) is
decoded as the real installed version. -/
def dump_doc_info_decode (doc : Doc) : DumpInfo :=
  let pv := dumpScan (none, none) doc.terms
  let installed_raw := doc.values 0
  let installed_version :=
    if installed_raw.isEmpty then none else some (decode_version installed_raw)
  match doc.values 1 with
  | [] =>
    { pkg_name := pv.1, repo_version := pv.2, installed_version := installed_version
      installed_flag := false, installed_version_real := none }
  | b0 :: _ =>
    if b0 &&& 0x80 ≠ 0 then
      let val_version := doc.values 3
      { pkg_name := pv.1, repo_version := pv.2, installed_version := installed_version
        installed_flag := true
        installed_version_real :=
          if val_version.isEmpty then none else some (decode_version val_version) }
    else
      { pkg_name := pv.1, repo_version := pv.2, installed_version := installed_version
        installed_flag := false, installed_version_real := none }

/-- The section printed by `dump_doc_info`: it is *not* read from the
document but obtained from `get_package_metadata(pkg_name)`, an external
`apt-cache show` / `dpkg-query -s` lookup modelled by the oracle `meta`
(mapping a package name to its section and description).  When the
document yields no package name the source crashes in the earlier
`dpkg-query` subprocess call, a path not modelled here. -/
def dump_doc_info_printed_section
    (meta : List Char → Option (List Char) × Option (List Char)) (doc : Doc) :
    Option (List Char) :=
  (dumpScan (none, none) doc.terms).1.bind (fun n => (meta n).1)

/-! ## C10: the installed flag gates the real installed version -/

/-- C10: `dump_doc_info` decodes the authoritative installed version
(value slot 3) only when value slot 1 is non-empty and bit `0x80` of its
first byte is set; when slot 1 is empty or the bit is clear, the real
installed version is absent even if slot 3 contains data. -/
theorem dump_installed_real_gated_c10 (doc : Doc) :
    (∀ b0 rest, doc.values 1 = b0 :: rest → b0 &&& 0x80 ≠ 0 →
        (dump_doc_info_decode doc).installed_flag = true ∧
        (dump_doc_info_decode doc).installed_version_real =
          (if (doc.values 3).isEmpty then none
           else some (decode_version (doc.values 3)))) ∧
    (doc.values 1 = [] →
        (dump_doc_info_decode doc).installed_flag = false ∧
        (dump_doc_info_decode doc).installed_version_real = none) ∧
    (∀ b0 rest, doc.values 1 = b0 :: rest → b0 &&& 0x80 = 0 →
        (dump_doc_info_decode doc).installed_flag = false ∧
        (dump_doc_info_decode doc).installed_version_real = none) := by
  refine ⟨?_, ?_, ?_⟩
  · intro b0 rest h hbit
    simp [dump_doc_info_decode, h, hbit]
  · intro h
    simp [dump_doc_info_decode, h]
  · intro b0 rest h hbit
    simp [dump_doc_info_decode, h, hbit]

/-- A document whose slot 1 has the flag bit clear while slot 3 holds the
bytes of `"9.0-1"`. -/
def flagClearDoc : Doc :=
  { terms := []
    values := fun i => if i = 1 then [0x00] else if i = 3 then [57, 46, 48, 45, 49] else [] }

/-- Witness for C10: with the flag bit clear, the real installed version is
absent even though slot 3 contains the bytes of `"9.0-1"`. -/
theorem dump_installed_real_gated_c10_witness :
    (dump_doc_info_decode flagClearDoc).installed_flag = false ∧
    (dump_doc_info_decode flagClearDoc).installed_version_real = none ∧
    flagClearDoc.values 3 ≠ [] :=
  ⟨((dump_installed_real_gated_c10 flagClearDoc).2.2 0 [] rfl (by decide)).1,
   ((dump_installed_real_gated_c10 flagClearDoc).2.2 0 [] rfl (by decide)).2,
   by decide⟩

/-! ## C3: the worked decoding scenario -/

/-- The scenario document from the spec: terms
`["XPvim", "XVwit:2:9.0", "XSeditors", "XRDlibc6"]`, slot 1 byte 0 equal
to `0x80`, slot 3 holding the UTF-8 bytes of `"9.0-1"`. -/
def scenarioDoc : Doc :=
  { terms := ["XPvim".data, "XVwit:2:9.0".data, "XSeditors".data, "XRDlibc6".data]
    values := fun i => if i = 1 then [0x80] else if i = 3 then [57, 46, 48, 45, 49] else [] }

/-- The metadata oracle of a system whose package manager knows nothing:
`apt-cache show`/`dpkg-query -s` yield no section and no description. -/
def emptyMeta : List Char → Option (List Char) × Option (List Char) :=
  fun _ => (none, none)

/-- Counterexample for C3: the section reported by `dump_doc_info` comes
from the external package-manager lookup, not from the document, so on a
system whose package manager knows nothing the reported section is absent
even though the document carries the term `XSeditors`; the claimed record
field `section = "editors"` is therefore not produced by the decode. -/
theorem scenario_section_not_decoded_c3 :
    dump_doc_info_printed_section emptyMeta scenarioDoc = none ∧
    "XSeditors".data ∈ scenarioDoc.terms ∧
    ¬ dump_doc_info_printed_section emptyMeta scenarioDoc = some "editors".data := by
  refine ⟨by decide, by decide, by decide⟩

/-- C3 (amended): the scenario document decodes, through
`dump_doc_info`, to package name `vim`, repository version `wit:2:9.0`,
installed flag `true` and real installed version `"9.0-1"` (slot 0 being
empty, the legacy installed version is absent); the section term decoder
used by the group commands extracts section `editors` from the same
document.  No code in the repository decodes the `XRDlibc6` dependency
term. -/
theorem scenario_decode_c3 :
    dump_doc_info_decode scenarioDoc =
      { pkg_name := some "vim".data
        repo_version := some "wit:2:9.0".data
        installed_version := none
        installed_flag := true
        installed_version_real := some "9.0-1" } ∧
    sectionScan scenarioDoc.terms = some "editors".data := by
  refine ⟨by decide, by decide⟩

/-! ## C2: first-occurrence-wins versus last-occurrence-wins -/

/-- A document carrying two package-name terms. -/
def twoNamesDoc : Doc :=
  { terms := ["XPa".data, "XPb".data], values := fun _ => [] }

/-- Counterexample for C2: on a document with terms `["XPa", "XPb"]`,
`dump_doc_info` resolves the package name to the payload of the *last*
`XP` term (`"b"`), not the first (`"a"`) — while `get_pkg_name` on the
same term list returns the first payload. -/
theorem dump_name_last_wins_c2 :
    (dump_doc_info_decode twoNamesDoc).pkg_name = some "b".data ∧
    ¬ (dump_doc_info_decode twoNamesDoc).pkg_name = some "a".data ∧
    get_pkg_name twoNamesDoc.terms = some "a".data := by
  refine ⟨by decide, by decide, by decide⟩

theorem find?_append_hit {α} (p : α → Bool) (l : List α) (t : α) (h : p t = true) :
    (l ++ [t]).find? p = ((l.find? p).getD t |> some) := by
  induction l with
  | nil => simp [List.find?, h]
  | cons a as ih =>
    by_cases ha : p a
    · rw [List.cons_append, List.find?_cons_of_pos _ ha, List.find?_cons_of_pos _ ha]
      simp
    · rw [List.cons_append, List.find?_cons_of_neg _ ha, List.find?_cons_of_neg _ ha]
      exact ih

theorem find?_append_miss {α} (p : α → Bool) (l : List α) (t : α) (h : p t = false) :
    (l ++ [t]).find? p = l.find? p := by
  induction l with
  | nil => simp [List.find?, h]
  | cons a as ih =>
    by_cases ha : p a
    · rw [List.cons_append, List.find?_cons_of_pos _ ha, List.find?_cons_of_pos _ ha]
    · rw [List.cons_append, List.find?_cons_of_neg _ ha, List.find?_cons_of_neg _ ha]
      exact ih

theorem dumpScan_fst (terms : List Term) :
    ∀ a b : Option (List Char),
      (dumpScan (a, b) terms).1 =
        match terms.reverse.find? hasXP with
        | some t => some (t.drop 2)
        | none => a := by
  induction terms with
  | nil => intro a b; simp [dumpScan]
  | cons t rest ih =>
    intro a b
    by_cases hp : hasXP t
    · rw [show dumpScan (a, b) (t :: rest) = dumpScan (some (t.drop 2), b) rest by
        simp [dumpScan, hp]]
      rw [ih]
      have : (t :: rest).reverse = rest.reverse ++ [t] := by simp
      rw [this, find?_append_hit hasXP rest.reverse t hp]
      cases h : rest.reverse.find? hasXP <;> simp [h]
    · have hstep : dumpScan (a, b) (t :: rest) =
          if hasXV t then dumpScan (a, some (t.drop 2)) rest else dumpScan (a, b) rest := by
        simp [dumpScan, hp]
      have : (t :: rest).reverse = rest.reverse ++ [t] := by simp
      rw [hstep, this, find?_append_miss hasXP rest.reverse t (by simpa using hp)]
      by_cases hv : hasXV t <;> simp [hv, ih]

/-- C2 (amended): `get_pkg_name` (used by the name-lookup scans and the
group listers) resolves the package name first-occurrence-wins, and
`list_groups` resolves the section first-occurrence-wins; the term scan of
`dump_doc_info`, however, resolves the package name last-occurrence-wins
(the payload of the last `XP` term). -/
theorem term_resolution_order_c2 :
    (∀ (pre : List Term) (x : List Char) (suf : List Term),
        (∀ t ∈ pre, hasXP t = false) →
        get_pkg_name (pre ++ ('X' :: 'P' :: x) :: suf) = some x) ∧
    (∀ (pre : List Term) (x : List Char) (suf : List Term),
        (∀ t ∈ pre, hasXS t = false) →
        sectionScan (pre ++ ('X' :: 'S' :: x) :: suf) = some x) ∧
    (∀ terms : List Term,
        (dumpScan (none, none) terms).1 =
          match terms.reverse.find? hasXP with
          | some t => some (t.drop 2)
          | none => none) := by
  refine ⟨?_, ?_, fun terms => dumpScan_fst terms none none⟩
  · intro pre x suf h
    induction pre with
    | nil => simp [get_pkg_name, hasXP]
    | cons t ts ih =>
      have ht : hasXP t = false := h t (by simp)
      simp only [List.cons_append, get_pkg_name, ht, Bool.false_eq_true, if_false]
      exact ih (fun u hu => h u (by simp [hu]))
  · intro pre x suf h
    induction pre with
    | nil => simp [sectionScan, hasXS]
    | cons t ts ih =>
      have ht : hasXS t = false := h t (by simp)
      simp only [List.cons_append, sectionScan, ht, Bool.false_eq_true, if_false]
      exact ih (fun u hu => h u (by simp [hu]))

/-- Witness for C2 (amended): on the term list
`["XV1", "XPa", "XPb"]` the first-wins scan returns `"a"`, the section
scan of `["XQx", "XSmail", "XSweb"]` returns `"mail"`, and the
`dump_doc_info` scan of `["XPa", "XPb"]` returns the last payload `"b"`. -/
theorem term_resolution_order_c2_witness :
    get_pkg_name (["XV1".data] ++ ('X' :: 'P' :: "a".data) :: ["XPb".data]) = some "a".data ∧
    sectionScan (["XQx".data] ++ ('X' :: 'S' :: "mail".data) :: ["XSweb".data]) = some "mail".data ∧
    (dumpScan (none, none) ["XPa".data, "XPb".data]).1 = some "b".data := by
  refine ⟨term_resolution_order_c2.1 ["XV1".data] "a".data ["XPb".data] (by decide),
    term_resolution_order_c2.2.1 ["XQx".data] "mail".data ["XSweb".data] (by decide), ?_⟩
  rw [term_resolution_order_c2.2.2 ["XPa".data, "XPb".data]]
  decide

/-! ## Sorting (Python `sorted`) -/

/-- Insert into a sorted list, keeping existing elements first on ties
(the stability of Python's sort). -/
def insertLe {α : Type} (le : α → α → Bool) (x : α) : List α → List α
  | [] => [x]
  | y :: ys => if le x y then x :: y :: ys else y :: insertLe le x ys

/-- Insertion sort, modelling Python's stable ascending `sorted`. -/
def insertionSort {α : Type} (le : α → α → Bool) (l : List α) : List α :=
  l.foldr (insertLe le) []

theorem mem_insertLe {α : Type} (le : α → α → Bool) (x a : α) (l : List α) :
    a ∈ insertLe le x l ↔ a = x ∨ a ∈ l := by
  induction l with
  | nil => simp [insertLe]
  | cons y ys ih =>
    rw [insertLe]
    cases hxy : le x y with
    | true => simp [List.mem_cons]
    | false =>
      simp only [Bool.false_eq_true, if_false, List.mem_cons, ih]
      tauto

theorem mem_insertionSort {α : Type} (le : α → α → Bool) (a : α) (l : List α) :
    a ∈ insertionSort le l ↔ a ∈ l := by
  induction l with
  | nil => simp [insertionSort]
  | cons y ys ih =>
    simp only [insertionSort, List.foldr] at ih ⊢
    rw [mem_insertLe, ih, List.mem_cons]

/-- Python's `<` on strings: lexicographic comparison by code point. -/
def lexLt : List Char → List Char → Bool
  | [], [] => false
  | [], _ :: _ => true
  | _ :: _, [] => false
  | a :: as, b :: bs => if a < b then true else if b < a then false else lexLt as bs

/-- The non-strict order used to model `sorted` on strings. -/
def lexLe (a b : List Char) : Bool := !lexLt b a

/-- Python's `if name:` guard on an optional string: an empty string is
falsy, so both `None` and `""` are rejected. -/
def nonEmptyName (o : Option (List Char)) : Option (List Char) :=
  o.bind (fun n => if n.isEmpty then none else some n)

/-! ## C9: full index scans skip invalid document ids -/

/-- The collection loop of `main` in `list_packages.py`: iterate document
ids from 1 to `db.get_doccount()` inclusive; an id for which the engine
raises (`xapian.InvalidArgumentError`, modelled by `none`) is skipped by
the `except ... continue`, and a document whose package name is missing or
empty contributes nothing (`if name:`). -/
def list_packages_scan (db : Db) : List (List Char) :=
  (List.range' 1 db.doccount).filterMap
    (fun i => (db.get i).bind (fun d => nonEmptyName (get_pkg_name d.terms)))

/-- `main` in `list_packages.py` then prints the collected names in
`sorted` order. -/
def list_packages_output (db : Db) : List (List Char) :=
  insertionSort lexLe (list_packages_scan db)

/-- C9: the scan iterates ids 1..doccount inclusive; an id the engine
reports as invalid is skipped without aborting, so every valid id in range
still contributes, and the output depends only on the documents the engine
serves for ids 1..doccount. -/
theorem scan_skips_invalid_c9 :
    (∀ (db : Db) (i : Nat) (d : Doc) (n : List Char),
        1 ≤ i → i ≤ db.doccount → db.get i = some d →
        get_pkg_name d.terms = some n → n ≠ [] →
        n ∈ list_packages_output db) ∧
    (∀ db db' : Db, db.doccount = db'.doccount →
        (∀ i, 1 ≤ i → i ≤ db.doccount → db.get i = db'.get i) →
        list_packages_output db = list_packages_output db') := by
  constructor
  · intro db i d n h1 h2 hget hname hne
    rw [list_packages_output, mem_insertionSort]
    rw [list_packages_scan, List.mem_filterMap]
    refine ⟨i, ?_, ?_⟩
    · rw [List.mem_range'_1]
      omega
    · rw [hget]
      simp [nonEmptyName, hname, List.isEmpty_iff, hne]
  · intro db db' hcount hsame
    rw [list_packages_output, list_packages_output, list_packages_scan,
      list_packages_scan, ← hcount]
    congr 1
    apply List.filterMap_congr
    intro i hi
    rw [List.mem_range'_1] at hi
    rw [hsame i hi.1 (by omega)]

/-- The document of id 4 in `gapDb`. -/
def p4Doc : Doc := { terms := [['X', 'P', 'p', '4']], values := fun _ => [] }

/-- A database where document id 3 is invalid while ids 1, 2 and 4 are
valid. -/
def gapDb : Db :=
  { doccount := 4
    get := fun i =>
      if i = 4 then some p4Doc
      else if i = 3 ∨ i = 0 ∨ i > 4 then none
      else some { terms := [['X', 'P', 'p', '0']], values := fun _ => [] } }

/-- Witness for C9: id 3 is invalid in `gapDb`, yet the package of id 4 is
still listed — the scan does not stop at the gap. -/
theorem scan_skips_invalid_c9_witness :
    gapDb.get 3 = none ∧ ['p', '4'] ∈ list_packages_output gapDb :=
  ⟨rfl,
   scan_skips_invalid_c9.1 gapDb 4 p4Doc ['p', '4']
     (by decide) (by decide) rfl (by decide) (by decide)⟩

/-! ## C1: the group listing and its shadowed fuzzy-suggestion variant -/

/-- Message `Группа '<g>' не найдена.` printed by the first (shadowed)
definition of `list_packages_in_group`. -/
def notFoundGroupMsg (g : List Char) : String :=
  "Группа '" ++ String.mk g ++ "' не найдена."

/-- Header printed before fuzzy suggestions by the shadowed definition. -/
def suggestHeader : String := "Возможно, вы имели в виду одну из этих групп?"

/-- Message printed by the shadowed definition when no group clears the
`difflib` cutoff. -/
def noSimilarMsg : String := "Похожие группы не найдены."

/-- Message `Пакеты группы '<g>' не найдены.` printed by both definitions
when no package was printed. -/
def noPackagesMsg (g : List Char) : String :=
  "Пакеты группы '" ++ String.mk g ++ "' не найдены."

/-- The group set built by the *first* (shadowed) definition of
`list_packages_in_group` in `dump_terms.py`: for every valid document with
a non-empty package name it asks `get_package_metadata` (an external
`apt-cache`/`dpkg` lookup, modelled by the oracle `meta`) for the section;
the Python `set` is modelled as the deduplicated collection list. -/
def groupsFromMeta (meta : List Char → Option (List Char)) (db : Db) : List (List Char) :=
  ((List.range' 1 db.doccount).filterMap
    (fun i => (db.get i).bind
      (fun d => (nonEmptyName (get_pkg_name d.terms)).bind meta))).dedup

/-- The *first* definition of `list_packages_in_group` in `dump_terms.py`
(lines 298–340).  It is dead code: a second definition of the same name
later in the module shadows it before `main` ever calls the name.
`closeMatches` models `difflib.get_close_matches(g, groups, n=5, cutoff=0.5)`
(an external library call); `meta` models `get_package_metadata`. -/
def list_packages_in_group_shadowed
    (closeMatches : List Char → List (List Char) → List (List Char))
    (meta : List Char → Option (List Char)) (db : Db) (g : List Char) : List String :=
  let groups := groupsFromMeta meta db
  if g ∈ groups then
    let pkgs := (List.range' 1 db.doccount).filterMap
      (fun i => (db.get i).bind
        (fun d => (nonEmptyName (get_pkg_name d.terms)).bind
          (fun n => if meta n = some g then some (String.mk n) else none)))
    pkgs ++ (if pkgs.isEmpty then [noPackagesMsg g] else [])
  else
    notFoundGroupMsg g ::
      (if (closeMatches g groups).isEmpty then [noSimilarMsg]
       else suggestHeader :: (closeMatches g groups).map (fun m => "  " ++ String.mk m))

/-- The *second* definition of `list_packages_in_group` in `dump_terms.py`
(lines 362–387), the one in force when the module is loaded: print the
package name of every valid document carrying a section term `XS<g>`, and
when none was printed, only the message `Пакеты группы '<g>' не найдены.`
— no group-existence check and no fuzzy suggestions. -/
def list_packages_in_group_eff (db : Db) (g : List Char) : List String :=
  let pkgs := (List.range' 1 db.doccount).filterMap
    (fun i => (db.get i).bind
      (fun d =>
        if d.terms.any (fun t => hasXS t && t.drop 2 == g) then
          (nonEmptyName (get_pkg_name d.terms)).map String.mk
        else none))
  pkgs ++ (if pkgs.isEmpty then [noPackagesMsg g] else [])

/-- The section set discovered by `list_groups` in `dump_terms.py`
(first `XS` term of every valid document, collected into a set). -/
def list_groups_sections (db : Db) : List (List Char) :=
  ((List.range' 1 db.doccount).filterMap
    (fun i => (db.get i).bind (fun d => sectionScan d.terms))).dedup

/-- The single document of `oneDocDb`: package `vim` in section
`editors`. -/
def vimDoc : Doc := { terms := ["XPvim".data, "XSeditors".data], values := fun _ => [] }

/-- A database with a single document of package `vim` in section
`editors`. -/
def oneDocDb : Db :=
  { doccount := 1
    get := fun i => if i = 1 then some vimDoc else none }

/-- Counterexample for C1: for the group name `editorz`, which is not
among the discovered sections (`editors` is, and would clear the 0.5
`difflib` cutoff), the group-listing operation in force prints only
`Пакеты группы 'editorz' не найдены.` — neither the group-not-found
report nor any similar-group suggestion nor the no-similar-groups message
ever appears. -/
theorem group_suggestions_shadowed_c1 :
    list_packages_in_group_eff oneDocDb "editorz".data = [noPackagesMsg "editorz".data] ∧
    "editorz".data ∉ list_groups_sections oneDocDb ∧
    notFoundGroupMsg "editorz".data ∉ list_packages_in_group_eff oneDocDb "editorz".data ∧
    noSimilarMsg ∉ list_packages_in_group_eff oneDocDb "editorz".data ∧
    suggestHeader ∉ list_packages_in_group_eff oneDocDb "editorz".data := by
  refine ⟨by decide, by decide, by decide, by decide, by decide⟩

/-- C1 (amended): the fuzzy-suggestion behaviour lives only in the
shadowed first definition of `list_packages_in_group`; the definition in
force prints, for a group name carried by no document, exactly the single
message `Пакеты группы '<g>' не найдены.` with no suggestions, while the
shadowed definition would have printed the group-not-found report followed
by the close matches or the no-similar-groups message. -/
theorem group_listing_effective_c1 :
    (∀ (db : Db) (g : List Char),
        (∀ i d, 1 ≤ i → i ≤ db.doccount → db.get i = some d →
            ∀ t ∈ d.terms, ¬(hasXS t = true ∧ t.drop 2 = g)) →
        list_packages_in_group_eff db g = [noPackagesMsg g]) ∧
    (∀ closeMatches meta (db : Db) (g : List Char),
        g ∉ groupsFromMeta meta db →
        list_packages_in_group_shadowed closeMatches meta db g =
          notFoundGroupMsg g ::
            (if (closeMatches g (groupsFromMeta meta db)).isEmpty then [noSimilarMsg]
             else suggestHeader ::
               (closeMatches g (groupsFromMeta meta db)).map (fun m => "  " ++ String.mk m))) := by
  constructor
  · intro db g h
    rw [list_packages_in_group_eff]
    have hnil : (List.range' 1 db.doccount).filterMap
        (fun i => (db.get i).bind
          (fun d =>
            if d.terms.any (fun t => hasXS t && t.drop 2 == g) then
              (nonEmptyName (get_pkg_name d.terms)).map String.mk
            else none)) = [] := by
      rw [List.filterMap_eq_nil_iff]
      intro i hi
      rw [List.mem_range'_1] at hi
      cases hget : db.get i with
      | none => rfl
      | some d =>
        simp only [Option.some_bind, ite_eq_right_iff, List.any_eq_true,
          Bool.and_eq_true, beq_iff_eq, forall_exists_index, and_imp]
        intro t ht hxs hdrop
        exact absurd ⟨hxs, hdrop⟩ (h i d hi.1 (by omega) hget t ht)
    rw [hnil]
    rfl
  · intro closeMatches meta db g h
    rw [list_packages_in_group_shadowed]
    simp only [h, if_false]

/-- Witness for C1 (amended): applied to `oneDocDb` and the group
`editorz` (carried by no document), the effective listing prints exactly
the packages-not-found message. -/
theorem group_listing_effective_c1_witness :
    list_packages_in_group_eff oneDocDb "editorz".data = [noPackagesMsg "editorz".data] := by
  apply group_listing_effective_c1.1 oneDocDb "editorz".data
  intro i d h1 h2 hget t ht hcontra
  have hc : oneDocDb.doccount = 1 := rfl
  rw [hc] at h2
  have hi : i = 1 := by omega
  subst hi
  have h' : oneDocDb.get 1 = some vimDoc := rfl
  rw [h'] at hget
  have hd := Option.some.inj hget
  subst hd
  simp only [vimDoc, List.mem_cons, List.not_mem_nil, or_false] at ht
  rcases ht with rfl | rfl
  · exact absurd hcontra (by decide)
  · exact absurd hcontra (by decide)

/-! ## The value-slot registry (`readValueDB`, two variants) -/

/-- Python's `\s` on the ASCII range (lines are modelled without their
trailing newline, which both regex variants treat like end-of-line). -/
def pySpace (c : Char) : Bool :=
  c = ' ' ∨ c = '\t' ∨ c = '\n' ∨ c = '\r' ∨ c = '\x0b' ∨ c = '\x0c'

/-- Remove trailing whitespace. -/
def rstripWs (l : List Char) : List Char :=
  (l.reverse.dropWhile pySpace).reverse

/-- The value of a non-empty digit string. -/
def digitsToNat (ds : List Char) : Nat :=
  ds.foldl (fun a c => a * 10 + (c.toNat - 48)) 0

/-- A Python `dict` as an insertion-ordered association list;
assignment to an existing key overwrites its value in place. -/
def dictInsert {β : Type} (d : List (List Char × β)) (k : List Char) (v : β) :
    List (List Char × β) :=
  if d.any (fun p => p.1 == k) then d.map (fun p => if p.1 == k then (p.1, v) else p)
  else d ++ [(k, v)]

/-- Key lookup in the `dict` model. -/
def dictLookup {β : Type} (d : List (List Char × β)) (k : List Char) : Option β :=
  (d.find? (fun p => p.1 == k)).map (fun p => p.2)

/-- `re_empty = ^\s*(?:#.*)?$` from `axi/__init__.py`: optional whitespace
followed by nothing or a `#` comment. -/
def axiEmptyLine (l : List Char) : Bool :=
  match l.dropWhile pySpace with
  | [] => true
  | c :: _ => c = '#'

/-- `re_value = ^(\S+)\s+(\d+)(?:\s*#\s*(.+))?$` from `axi/__init__.py`,
as a deterministic parser (the regex backtracks into exactly these maximal
runs): a non-empty run of non-whitespace (the name), whitespace, a
non-empty digit run (the slot number), then either end of line or a `#`
followed by an optional gap and a non-empty description. -/
def axiParseLine (l : List Char) : Option (List Char × Nat × List Char) :=
  let name := l.takeWhile (fun c => !pySpace c)
  if name.isEmpty then none
  else
    let r1 := l.drop name.length
    let ws1 := r1.takeWhile pySpace
    if ws1.isEmpty then none
    else
      let r2 := r1.drop ws1.length
      let digits := r2.takeWhile Char.isDigit
      if digits.isEmpty then none
      else
        let r3 := r2.drop digits.length
        if r3.isEmpty then some (name, digitsToNat digits, [])
        else
          match r3.drop (r3.takeWhile pySpace).length with
          | '#' :: r5 =>
            -- the greedy `\s*` after `#` gives characters back until `(.+)`
            -- can take at least one, so the description may be whitespace
            if r5.isEmpty then none
            else some (name, digitsToNat digits,
              r5.drop (min (r5.takeWhile pySpace).length (r5.length - 1)))
          | _ => none

/-- One iteration of the parsing loop in `axi.readValueDB`: empty/comment
lines are skipped before `re_value` is tried, and a line that matches
neither contributes nothing (a warning is printed and the loop
continues). -/
def axiLineRecord (l : List Char) : Option (List Char × Nat × List Char) :=
  if axiEmptyLine l then none else axiParseLine l

/-- One loop iteration of `axi.readValueDB` acting on the
`(values, descs)` pair. -/
def axiStep (vd : List (List Char × Nat) × List (List Char × List Char))
    (l : List Char) : List (List Char × Nat) × List (List Char × List Char) :=
  match axiLineRecord l with
  | some r => (dictInsert vd.1 r.1 r.2.1, dictInsert vd.2 r.1 r.2.2)
  | none => vd

/-- The same iteration restricted to the `values` dictionary. -/
def axiValStep (d : List (List Char × Nat)) (l : List Char) :
    List (List Char × Nat) :=
  match axiLineRecord l with
  | some r => dictInsert d r.1 r.2.1
  | none => d

/-- The `values`/`descs` dictionaries accumulated by the loop of
`axi.readValueDB`. -/
def axiParsedDB (lines : List (List Char)) :
    List (List Char × Nat) × List (List Char × List Char) :=
  lines.foldl axiStep ([], [])

/-- `axi.DEFAULT_VALUES`. -/
def axiDefaults : List (List Char × Nat) :=
  [("version".data, 0), ("installedsize".data, 1), ("packagesize".data, 2)]

/-- `axi.DEFAULT_VALUE_DESCS`. -/
def axiDefaultDescs : List (List Char × List Char) :=
  [("version".data, "package version".data),
   ("installedsize".data, "installed size".data),
   ("packagesize".data, "package size".data)]

/-- `readValueDB` from `axi/__init__.py`: `none` models a source that
cannot be opened (`OSError`/`IOError`); a readable source is the list of
its lines.  An unreadable source, or one yielding zero valid records
(`if not values: raise BrokenIndexError`), falls back to the default
databases. -/
def readValueDB_axi (source : Option (List (List Char))) :
    List (List Char × Nat) × List (List Char × List Char) :=
  match source with
  | none => (axiDefaults, axiDefaultDescs)
  | some lines =>
    let vd := axiParsedDB lines
    if vd.1.isEmpty then (axiDefaults, axiDefaultDescs) else vd

/-- `rmcomments.sub("", line)` in `aptxapianindex.readValueDB` with the
pattern `\s*(#.*)?$`: everything from the first `#` on is removed, then
trailing whitespace is stripped. -/
def stripComment (l : List Char) : List Char :=
  rstripWs (l.takeWhile (fun c => c ≠ '#'))

theorem length_dropWhile_le {α : Type} (p : α → Bool) (l : List α) :
    (l.dropWhile p).length ≤ l.length := by
  induction l with
  | nil => simp [List.dropWhile]
  | cons a as ih =>
    rw [List.dropWhile]
    cases h : p a with
    | false => simp
    | true => simp only [List.length_cons]; omega

/-- Tokens of `re.split(r"\s+", s)` after the leading token: the head
character is part of the first token (callers only pass lists whose head
is not whitespace).  The recursion is bounded by a fuel argument so that
the definition stays structurally recursive (each step consumes at least
one character, so a fuel of the input length never runs out). -/
def splitTokensGo : Nat → List Char → List (List Char)
  | _, [] => []
  | 0, _ :: _ => []
  | fuel + 1, c :: rest =>
    let tok := rest.takeWhile (fun x => !pySpace x)
    (c :: tok) :: splitTokensGo fuel ((rest.drop tok.length).dropWhile pySpace)

/-- `re.split(r"\s+", s)`: a string with leading whitespace yields a
leading empty field. -/
def splitWs (s : List Char) : List (List Char) :=
  match s with
  | [] => [[]]
  | c :: _ =>
    if pySpace c then [] :: splitTokensGo s.length (s.dropWhile pySpace)
    else splitTokensGo s.length s

/-- Python `int(s)` on a field: surrounding whitespace and a leading sign
are allowed, then decimal digits with single underscores between digits
(ASCII model). -/
def digitsUnd (acc : Nat) : List Char → Option Nat
  | [] => some acc
  | c :: rest =>
    if c.isDigit then digitsUnd (acc * 10 + (c.toNat - 48)) rest
    else if c = '_' then
      match rest with
      | d :: rest2 =>
        if d.isDigit then digitsUnd (acc * 10 + (d.toNat - 48)) rest2 else none
      | [] => none
    else none

/-- Python `int(s)` (see `digitsUnd`); `none` models `ValueError`. -/
def pyInt (s : List Char) : Option Int :=
  let t := rstripWs (s.dropWhile pySpace)
  match t with
  | [] => none
  | '-' :: rest =>
    match rest with
    | c :: _ => if c.isDigit then (digitsUnd 0 rest).map (fun n => -(n : Int)) else none
    | [] => none
  | '+' :: rest =>
    match rest with
    | c :: _ => if c.isDigit then (digitsUnd 0 rest).map (fun n => (n : Int)) else none
    | [] => none
  | c :: _ => if c.isDigit then (digitsUnd 0 t).map (fun n => (n : Int)) else none

/-- One iteration of the loop in `aptxapianindex.readValueDB`: strip the
comment; skip the line if empty; split on whitespace runs; skip if fewer
than two fields; skip if the second field is not a number; otherwise the
first field (and every trailing alias field) maps to the number. -/
def aptxLineRecord (l : List Char) : Option (List Char × Int × List (List Char)) :=
  let content := stripComment l
  if content.isEmpty then none
  else
    match splitWs content with
    | f0 :: f1 :: rest => (pyInt f1).map (fun n => (f0, n, rest))
    | _ => none

/-- `aptxapianindex.readValueDB` fallback mapping, used only when the
source cannot be opened at all. -/
def aptxDefaults : List (List Char × Int) :=
  [("installedsize".data, 1), ("packagesize".data, 2)]

/-- One loop iteration of `aptxapianindex.readValueDB`: the first field
maps to the parsed number, and so does every trailing alias field. -/
def aptxStep (d : List (List Char × Int)) (l : List Char) :
    List (List Char × Int) :=
  match aptxLineRecord l with
  | some r => r.2.2.foldl (fun d2 a => dictInsert d2 a r.2.1) (dictInsert d r.1 r.2.1)
  | none => d

/-- `readValueDB` from `aptxapianindex.py`: only an unreadable source
(`OSError`, modelled by `none`) falls back to the defaults; a readable
source yields exactly the accumulated dictionary — which is empty when no
line parses. -/
def readValueDB_aptx (source : Option (List (List Char))) : List (List Char × Int) :=
  match source with
  | none => aptxDefaults
  | some lines => lines.foldl aptxStep []

-- Cross-checks of the line parsers against the behaviour of the Python
-- regular expressions and of `int()` on the same inputs.
example : axiLineRecord "version 0".data = some ("version".data, 0, []) := by decide
example : axiLineRecord "a 1 # desc".data = some ("a".data, 1, "desc".data) := by decide
example : axiLineRecord "a 1 #".data = none := by decide
example : axiLineRecord "a 1 #  ".data = some ("a".data, 1, " ".data) := by decide
example : axiLineRecord "a 1#x".data = some ("a".data, 1, "x".data) := by decide
example : axiLineRecord "  a 1".data = none := by decide
example : axiLineRecord "#a 1".data = none := by decide
example : axiLineRecord "".data = none := by decide
example : axiLineRecord "a#b 3".data = some ("a#b".data, 3, []) := by decide
example : axiLineRecord "a 1 2".data = none := by decide
example : axiLineRecord "a 12x".data = none := by decide
example : aptxLineRecord "name 3 # foo".data = some ("name".data, 3, []) := by decide
example : aptxLineRecord "  n 3".data = none := by decide
example : aptxLineRecord "x 3 y z".data = some ("x".data, 3, ["y".data, "z".data]) := by decide
example : aptxLineRecord "a -3".data = some ("a".data, -3, []) := by decide
example : aptxLineRecord "a 1_0".data = some ("a".data, 10, []) := by decide
example : aptxLineRecord "a 1__0".data = none := by decide
example : aptxLineRecord "a 3.5".data = none := by decide

theorem find?_map_update {β : Type} (d : List (List Char × β)) (k : List Char) (v : β)
    (h : d.any (fun p => p.1 == k) = true) :
    (d.map (fun p => if p.1 == k then (p.1, v) else p)).find? (fun p => p.1 == k) =
      some (k, v) := by
  induction d with
  | nil => simp at h
  | cons p ps ih =>
    cases hp : (p.1 == k) with
    | true =>
      have hk : p.1 = k := by simpa using hp
      simp only [List.map_cons, hp, if_true]
      rw [List.find?_cons_of_pos (p := fun q => q.1 == k) (a := (p.1, v)) _ hp]
      rw [hk]
    | false =>
      simp only [List.map_cons, hp, Bool.false_eq_true, if_false]
      rw [List.find?_cons_of_neg (p := fun q => q.1 == k) (a := p) _ (by simp [hp])]
      refine ih ?_
      rw [List.any_cons, hp, Bool.false_or] at h
      exact h

theorem find?_map_update_other {β : Type} (d : List (List Char × β)) (k k' : List Char)
    (v : β) (h : k' ≠ k) :
    (d.map (fun p => if p.1 == k then (p.1, v) else p)).find? (fun p => p.1 == k') =
      d.find? (fun p => p.1 == k') := by
  induction d with
  | nil => rfl
  | cons p ps ih =>
    by_cases hp : p.1 = k
    · have hpk : (p.1 == k) = true := by simpa using hp
      have hpk' : ¬((p.1 == k') = true) := by
        simp only [beq_iff_eq, hp]
        exact fun hh => h hh.symm
      simp only [List.map_cons, hpk, if_true]
      rw [List.find?_cons_of_neg (p := fun q => q.1 == k') (a := (p.1, v)) _ hpk',
        List.find?_cons_of_neg (p := fun q => q.1 == k') (a := p) _ hpk']
      exact ih
    · have hpk : (p.1 == k) = false := by simpa using hp
      simp only [List.map_cons, hpk, Bool.false_eq_true, if_false]
      by_cases hq : p.1 = k'
      · rw [List.find?_cons_of_pos (p := fun q => q.1 == k') (a := p) _ (by simpa using hq),
          List.find?_cons_of_pos (p := fun q => q.1 == k') (a := p) _ (by simpa using hq)]
      · rw [List.find?_cons_of_neg (p := fun q => q.1 == k') (a := p) _ (by simpa using hq),
          List.find?_cons_of_neg (p := fun q => q.1 == k') (a := p) _ (by simpa using hq)]
        exact ih

theorem dictLookup_insert_same {β : Type} (d : List (List Char × β)) (k : List Char)
    (v : β) : dictLookup (dictInsert d k v) k = some v := by
  rw [dictInsert]
  by_cases hany : d.any (fun p => p.1 == k) = true
  · rw [if_pos hany, dictLookup, find?_map_update d k v hany]
    rfl
  · rw [if_neg hany, dictLookup]
    have hnone : d.find? (fun p => p.1 == k) = none := by
      rw [List.find?_eq_none]
      intro x hx hpx
      exact hany (List.any_eq_true.mpr ⟨x, hx, hpx⟩)
    rw [find?_append_hit (fun p => p.1 == k) d (k, v) (by simp), hnone]
    rfl

theorem dictLookup_insert_other {β : Type} (d : List (List Char × β)) (k k' : List Char)
    (v : β) (h : k' ≠ k) : dictLookup (dictInsert d k v) k' = dictLookup d k' := by
  rw [dictInsert]
  by_cases hany : d.any (fun p => p.1 == k) = true
  · rw [if_pos hany, dictLookup, find?_map_update_other d k k' v h]
    rfl
  · rw [if_neg hany, dictLookup,
      find?_append_miss (fun p => p.1 == k') d (k, v)
        (by simp only [beq_eq_false_iff_ne, ne_eq]; exact fun hh => h hh.symm)]
    rfl

theorem foldl_axiStep_fst :
    ∀ (lines : List (List Char)) (vd : List (List Char × Nat) × List (List Char × List Char)),
      (lines.foldl axiStep vd).1 = lines.foldl axiValStep vd.1 := by
  intro lines
  induction lines with
  | nil => intro vd; rfl
  | cons l ls ih =>
    intro vd
    rw [List.foldl_cons, List.foldl_cons, ih]
    congr 1
    cases hrec : axiLineRecord l <;> simp [axiStep, axiValStep, hrec]

theorem foldl_axiValStep_lookup :
    ∀ (lines : List (List Char)) (v0 : List (List Char × Nat)) (name : List Char),
      dictLookup (lines.foldl axiValStep v0) name =
        match (lines.filterMap axiLineRecord).reverse.find? (fun r => r.1 == name) with
        | some r => some r.2.1
        | none => dictLookup v0 name := by
  intro lines
  induction lines with
  | nil => intro v0 name; rfl
  | cons l ls ih =>
    intro v0 name
    rw [List.foldl_cons, ih]
    cases hrec : axiLineRecord l with
    | none =>
      rw [show axiValStep v0 l = v0 by simp [axiValStep, hrec]]
      rw [show (l :: ls).filterMap axiLineRecord = ls.filterMap axiLineRecord by
        simp [List.filterMap_cons, hrec]]
    | some r =>
      rw [show axiValStep v0 l = dictInsert v0 r.1 r.2.1 by simp [axiValStep, hrec]]
      rw [show (l :: ls).filterMap axiLineRecord = r :: ls.filterMap axiLineRecord by
        simp [List.filterMap_cons, hrec]]
      rw [List.reverse_cons]
      cases pr : (r.1 == name) with
      | true =>
        rw [find?_append_hit (fun q => q.1 == name) (ls.filterMap axiLineRecord).reverse r pr]
        have hk : r.1 = name := by simpa using pr
        cases hfind : (ls.filterMap axiLineRecord).reverse.find? (fun p => p.1 == name) with
        | some r' => simp [hfind]
        | none =>
          simp only [hfind, Option.getD_none]
          rw [← hk, dictLookup_insert_same]
      | false =>
        rw [find?_append_miss (fun q => q.1 == name) (ls.filterMap axiLineRecord).reverse r pr]
        cases hfind : (ls.filterMap axiLineRecord).reverse.find? (fun p => p.1 == name) with
        | some r' => simp [hfind]
        | none =>
          simp only [hfind]
          exact dictLookup_insert_other v0 r.1 name r.2.1
            (fun hh => by simp [hh] at pr)

theorem foldl_aptxStep_skip :
    ∀ (ls : List (List Char)) (d : List (List Char × Int)),
      (∀ l ∈ ls, aptxLineRecord l = none) → ls.foldl aptxStep d = d := by
  intro ls
  induction ls with
  | nil => intro d _; rfl
  | cons l ls ih =>
    intro d h
    rw [List.foldl_cons, show aptxStep d l = d by simp [aptxStep, h l (by simp)]]
    exact ih d (fun x hx => h x (by simp [hx]))

/-- Counterexample for C4: a readable source consisting only of a comment
line and a blank line has zero valid records, and the aptxapianindex
variant of `readValueDB` then returns the *empty* mapping, not the default
`{installedsize: 1, packagesize: 2}`. -/
theorem readValueDB_zero_records_c4 :
    readValueDB_aptx (some ["# comment".data, "   ".data]) = [] ∧
    ¬ readValueDB_aptx (some ["# comment".data, "   ".data]) = aptxDefaults := by
  refine ⟨by decide, by decide⟩

/-- C4 (amended): the axi variant of `readValueDB` falls back to the
default mapping exactly when the source is unreadable or yields zero valid
records, and otherwise returns the parsed mapping; the aptxapianindex
variant falls back only when the source is unreadable, and a readable
source with zero valid records yields the empty mapping. -/
theorem readValueDB_fallback_c4 :
    readValueDB_axi none = (axiDefaults, axiDefaultDescs) ∧
    (∀ lines, (axiParsedDB lines).1 = [] →
        readValueDB_axi (some lines) = (axiDefaults, axiDefaultDescs)) ∧
    (∀ lines, (axiParsedDB lines).1 ≠ [] →
        readValueDB_axi (some lines) = axiParsedDB lines) ∧
    readValueDB_aptx none = aptxDefaults ∧
    (∀ lines, (∀ l ∈ lines, aptxLineRecord l = none) →
        readValueDB_aptx (some lines) = []) := by
  refine ⟨rfl, ?_, ?_, rfl, ?_⟩
  · intro lines h
    rw [readValueDB_axi]
    simp [h]
  · intro lines h
    rw [readValueDB_axi]
    simp [List.isEmpty_iff, h]
  · intro lines h
    rw [readValueDB_aptx]
    exact foldl_aptxStep_skip lines [] h

/-- Witness for C4: a readable source holding one comment line parses to
zero records, and the axi variant indeed falls back to the defaults. -/
theorem readValueDB_fallback_c4_witness :
    readValueDB_axi (some ["# no records here".data]) = (axiDefaults, axiDefaultDescs) :=
  readValueDB_fallback_c4.2.1 ["# no records here".data] (by decide)

/-- Counterexample for C5: with lines `["a 1", "a 2"]` — both valid — the
resulting mapping binds `a` to 2, the value of the *last* valid line, so
the name of the valid line `a 1` is not mapped to its own parsed
integer. -/
theorem duplicate_name_last_wins_c5 :
    axiLineRecord "a 1".data = some ("a".data, 1, []) ∧
    axiLineRecord "a 2".data = some ("a".data, 2, []) ∧
    dictLookup (readValueDB_axi (some ["a 1".data, "a 2".data])).1 "a".data = some 2 ∧
    ¬ dictLookup (readValueDB_axi (some ["a 1".data, "a 2".data])).1 "a".data = some 1 := by
  refine ⟨by decide, by decide, by decide, by decide⟩

/-- C5 (amended): in the accumulated value mapping each name is bound to
the parsed integer of the *last* valid line bearing that name (so every
name of a valid line is bound, and a name occurring once is bound to its
own integer); a malformed line contributes nothing and does not abort the
parsing of the other lines, in either variant of `readValueDB`. -/
theorem valueDB_line_semantics_c5 :
    (∀ (lines : List (List Char)) (name : List Char),
        dictLookup (axiParsedDB lines).1 name =
          ((lines.filterMap axiLineRecord).reverse.find?
            (fun r => r.1 == name)).map (fun r => r.2.1)) ∧
    (∀ pre bad post, axiLineRecord bad = none →
        axiParsedDB (pre ++ bad :: post) = axiParsedDB (pre ++ post)) ∧
    (∀ pre bad post, aptxLineRecord bad = none →
        readValueDB_aptx (some (pre ++ bad :: post)) = readValueDB_aptx (some (pre ++ post))) := by
  refine ⟨?_, ?_, ?_⟩
  · intro lines name
    rw [axiParsedDB, foldl_axiStep_fst, foldl_axiValStep_lookup]
    cases hfind : (lines.filterMap axiLineRecord).reverse.find? (fun r => r.1 == name) with
    | some r => simp
    | none => rfl
  · intro pre bad post h
    rw [axiParsedDB, axiParsedDB, List.foldl_append, List.foldl_append,
      List.foldl_cons, show axiStep (pre.foldl axiStep ([], [])) bad =
        pre.foldl axiStep ([], []) by simp [axiStep, h]]
  · intro pre bad post h
    rw [readValueDB_aptx, readValueDB_aptx, List.foldl_append, List.foldl_append,
      List.foldl_cons, show aptxStep (pre.foldl aptxStep []) bad =
        pre.foldl aptxStep [] by simp [aptxStep, h]]

/-- Witness for C5 (amended): inserting the malformed line `"x y"`
between two valid lines leaves the parsed database unchanged, and the
lookup of a once-bound name yields its own integer. -/
theorem valueDB_line_semantics_c5_witness :
    axiParsedDB (["a 1".data] ++ "x y".data :: ["b 2".data]) =
      axiParsedDB (["a 1".data] ++ ["b 2".data]) ∧
    dictLookup (axiParsedDB ["a 1".data, "b 2".data]).1 "b".data = some 2 := by
  constructor
  · exact valueDB_line_semantics_c5.2.1 ["a 1".data] "x y".data ["b 2".data] (by decide)
  · rw [valueDB_line_semantics_c5.1 ["a 1".data, "b 2".data] "b".data]
    decide

/-! ## C7: keyword classification in `termsForSimpleQuery` -/

/-- Python `str.islower()` on the ASCII range: at least one cased
character and no uppercase character (all cased characters lowercase). -/
def pyIslower (w : List Char) : Bool :=
  w.any Char.isLower && w.all (fun c => !c.isUpper)

/-- `word.find("::") != -1`: the word contains `::` as a substring. -/
def hasColonColon : List Char → Bool
  | [] => false
  | ':' :: ':' :: _ => true
  | _ :: rest => hasColonColon rest

/-- `termsForSimpleQuery` from `aptxapianindex.py`.  The `xapian.Stem`
English stemmer is an engine capability and is passed in as `stem`.  A
keyword that `islower()` holds of and that contains `::` is a Debtags tag
and contributes `"XT" + word` unchanged; any other keyword is lowercased
and contributes its lowercase form, followed by `"Z" + stem` when the stem
differs from the lowercase word. -/
def termsForSimpleQuery (stem : List Char → List Char) :
    List (List Char) → List (List Char)
  | [] => []
  | word :: rest =>
    if pyIslower word && hasColonColon word then
      ('X' :: 'T' :: word) :: termsForSimpleQuery stem rest
    else
      let w := word.map Char.toLower
      w ::
        (if stem w ≠ w then ('Z' :: stem w) :: termsForSimpleQuery stem rest
         else termsForSimpleQuery stem rest)

/-- C7: a keyword is classified as a faceted tag iff it is entirely
lowercase (in the `islower` sense) and contains `::`; a tag keyword
contributes exactly the one term `XT` + keyword, unchanged; every other
keyword is lowercased and contributes the lowercase form plus, exactly
when the English stem differs from it, the stem with the `Z` marker. -/
theorem query_terms_c7 :
    (∀ (stem : List Char → List Char) (w : List Char) (rest : List (List Char)),
        (pyIslower w && hasColonColon w) = true →
        termsForSimpleQuery stem (w :: rest) =
          ('X' :: 'T' :: w) :: termsForSimpleQuery stem rest) ∧
    (∀ (stem : List Char → List Char) (w : List Char) (rest : List (List Char)),
        (pyIslower w && hasColonColon w) = false →
        termsForSimpleQuery stem (w :: rest) =
          (w.map Char.toLower) ::
            (if stem (w.map Char.toLower) ≠ w.map Char.toLower then
              ('Z' :: stem (w.map Char.toLower)) :: termsForSimpleQuery stem rest
             else termsForSimpleQuery stem rest)) ∧
    (∀ stem : List Char → List Char,
        termsForSimpleQuery stem ["role::program".data] = ["XTrole::program".data]) ∧
    (∀ stem : List Char → List Char, stem "editor".data = "editor".data →
        termsForSimpleQuery stem ["Editor".data] = ["editor".data]) ∧
    (∀ stem : List Char → List Char, stem "editor".data ≠ "editor".data →
        termsForSimpleQuery stem ["Editor".data] =
          ["editor".data, 'Z' :: stem "editor".data]) := by
  refine ⟨?_, ?_, ?_, ?_, ?_⟩
  · intro stem w rest h
    simp [termsForSimpleQuery, h]
  · intro stem w rest h
    simp [termsForSimpleQuery, h]
  · intro stem
    have h : (pyIslower "role::program".data && hasColonColon "role::program".data) = true := by
      decide
    simp [termsForSimpleQuery, h]
  · intro stem h
    have hc : (pyIslower "Editor".data && hasColonColon "Editor".data) = false := by decide
    have hl : "Editor".data.map Char.toLower = "editor".data := by decide
    simp [termsForSimpleQuery, hc, hl, h]
  · intro stem h
    have hc : (pyIslower "Editor".data && hasColonColon "Editor".data) = false := by decide
    have hl : "Editor".data.map Char.toLower = "editor".data := by decide
    simp [termsForSimpleQuery, hc, hl, h]

/-- Witness for C7: with the identity stemmer, `role::program` becomes the
single unchanged tag term and `Editor` becomes the single lowercase
keyword. -/
theorem query_terms_c7_witness :
    termsForSimpleQuery (fun w => w) ["role::program".data] = ["XTrole::program".data] ∧
    termsForSimpleQuery (fun w => w) ["Editor".data] = ["editor".data] :=
  ⟨query_terms_c7.2.2.1 (fun w => w),
   query_terms_c7.2.2.2.1 (fun w => w) rfl⟩

/-! ## C6: named filter application -/

/-- A Xapian query expression as built by the source: leaf term-existence
predicates combined with `OP_AND` / `OP_OR`. -/
inductive XQuery where
  | term (t : String)
  | opAnd (a b : XQuery)
  | opOr (a b : XQuery)
deriving DecidableEq, Repr

/-- The `filterdb` dictionary of `aptxapianindex.py`, in insertion
order. -/
def filterdb : List (String × XQuery) :=
  [("game", XQuery.opAnd (XQuery.term "XTuse::gameplaying") (XQuery.term "XTrole::program")),
   ("gui", XQuery.opAnd (XQuery.term "XTrole::program")
      (XQuery.opOr (XQuery.term "XTinterface::x11") (XQuery.term "XTinterface::3d"))),
   ("cmdline", XQuery.opAnd (XQuery.term "XTrole::program") (XQuery.term "XTinterface::commandline")),
   ("editor", XQuery.opAnd (XQuery.term "XTrole::program") (XQuery.term "XTuse::editing"))]

/-- `filtername in filterdb` / `filterdb[filtername]`. -/
def filterLookup (s : String) : Option XQuery :=
  (filterdb.find? (fun p => p.1 == s)).map Prod.snd

/-- `sorted(filterdb)`: the filter names in Python string order. -/
def sortedFilterNames : List String :=
  insertionSort (fun a b => !lexLt b.data a.data) (filterdb.map Prod.fst)

/-- The message of the `RuntimeError` raised for an unknown filter name. -/
def invalidFilterMsg : String :=
  "Invalid filter type.  Try one of " ++ String.intercalate ", " sortedFilterNames

/-- `addSimpleFilterToQuery` from `aptxapianindex.py`.  The guard is
`if filtername:`, which is falsy both for `None` (absent) and for the
empty string, so both return the query unchanged; a known name ANDs its
preset in front of the query; any other name raises `RuntimeError`
(modelled by `Except.error`) listing the known names, sorted. -/
def addSimpleFilterToQuery (query : XQuery) (filtername : Option String) :
    Except String XQuery :=
  match filtername with
  | none => Except.ok query
  | some s =>
    if s = "" then Except.ok query
    else
      match filterLookup s with
      | some f => Except.ok (XQuery.opAnd f query)
      | none => Except.error invalidFilterMsg

/-- Counterexample for C6: the empty string is a present, unrecognized
filter name, yet `addSimpleFilterToQuery` returns the query unchanged
instead of failing (`if filtername:` is falsy for `""`). -/
theorem empty_filter_name_c6 :
    addSimpleFilterToQuery (XQuery.term "vim") (some "") =
      Except.ok (XQuery.term "vim") ∧
    filterLookup "" = none := by
  refine ⟨rfl, by decide⟩

/-- C6 (amended): `addSimpleFilterToQuery` returns the query unchanged
when the filter name is absent *or the empty string*; a recognized name
yields `AND(preset, query)`; every other name fails with the
invalid-filter error whose message lists all configured filter names in
sorted order. -/
theorem named_filter_c6 :
    (∀ q : XQuery, addSimpleFilterToQuery q none = Except.ok q) ∧
    (∀ q : XQuery, addSimpleFilterToQuery q (some "") = Except.ok q) ∧
    (∀ (q : XQuery) (s : String) (f : XQuery), s ≠ "" → filterLookup s = some f →
        addSimpleFilterToQuery q (some s) = Except.ok (XQuery.opAnd f q)) ∧
    (∀ (q : XQuery) (s : String), s ≠ "" → filterLookup s = none →
        addSimpleFilterToQuery q (some s) = Except.error invalidFilterMsg) ∧
    invalidFilterMsg = "Invalid filter type.  Try one of cmdline, editor, game, gui" ∧
    sortedFilterNames = ["cmdline", "editor", "game", "gui"] ∧
    sortedFilterNames.Perm (filterdb.map Prod.fst) ∧
    sortedFilterNames.Chain' (fun a b => lexLt a.data b.data = true) := by
  refine ⟨fun q => rfl, fun q => rfl, ?_, ?_, by decide, by decide, ?_, ?_⟩
  · intro q s f hs hf
    simp [addSimpleFilterToQuery, hs, hf]
  · intro q s hs hf
    simp [addSimpleFilterToQuery, hs, hf]
  · rw [show sortedFilterNames = ["cmdline", "editor", "game", "gui"] from by decide,
      show filterdb.map Prod.fst = ["game", "gui", "cmdline", "editor"] from by decide]
    decide
  · rw [show sortedFilterNames = ["cmdline", "editor", "game", "gui"] from by decide]
    exact List.Chain'.cons (by decide)
      (List.Chain'.cons (by decide)
        (List.Chain'.cons (by decide) (List.chain'_singleton _)))

/-- Witness for C6 (amended): the name `nonexistent` fails with the
message listing the sorted filter names, and the recognized name `game`
ANDs its preset in front of the query. -/
theorem named_filter_c6_witness :
    addSimpleFilterToQuery (XQuery.term "vim") (some "nonexistent") =
      Except.error invalidFilterMsg ∧
    addSimpleFilterToQuery (XQuery.term "vim") (some "game") =
      Except.ok (XQuery.opAnd
        (XQuery.opAnd (XQuery.term "XTuse::gameplaying") (XQuery.term "XTrole::program"))
        (XQuery.term "vim")) :=
  ⟨named_filter_c6.2.2.2.1 (XQuery.term "vim") "nonexistent" (by decide) (by decide),
   named_filter_c6.2.2.1 (XQuery.term "vim") "game"
     (XQuery.opAnd (XQuery.term "XTuse::gameplaying") (XQuery.term "XTrole::program"))
     (by decide) (by decide)⟩

end DebInfo
